import Mathlib

/-!
Shallow embedding of the create-svelte-lib CLI
(src/packages/create-svelte-lib/src/bin.ts) and proofs about its
behaviour.

The program is a sequential, side-effecting scaffolding script.  We embed
it as a pure function from an `Input` (command-line argument, interactive
answers, collected options, and an environment oracle describing the
outcomes of external collaborators: subprocess exits, registry fetches,
filesystem probes) to a trace of observable events plus a final outcome.
Machinery that the script calls but does not define (the `json-merger`
library, JavaScript string coercion, Node path helpers) is modelled
explicitly, with the model noted in the corresponding doc comment.
-/

namespace CreateSvelteLib

/-! ## JSON values and JavaScript semantics used by the script -/

/-- A JSON document, as produced by `JSON.parse` / `response.body.json()`. -/
inductive Json where
  | str (s : String)
  | num (n : Int)
  | bool (b : Bool)
  | null
  | arr (xs : List Json)
  | obj (fields : List (String × Json))

/-- JavaScript property access `v[k]` on a parsed JSON value: a key lookup
on an object (first binding wins), `undefined` (here `none`) on a missing
key or a non-object. Access on `null` throws instead; callers model that
case separately. -/
def jsGetField : Json → String → Option Json
  | Json.obj fields, k => (fields.find? (fun q => q.1 == k)).map Prod.snd
  | _, _ => none

/-- JavaScript ToString coercion of a JSON value, as applied by a template
literal. Primitive cases follow the ECMAScript rules; the array case would
join its elements, which is never exercised here because a registry
version field is a string when present at all. -/
def jsToStr : Json → String
  | Json.str s => s
  | Json.num n => toString n
  | Json.bool b => cond b "true" "false"
  | Json.null => "null"
  | Json.arr _ => ""
  | Json.obj _ => "[object Object]"

/-- Template-literal interpolation of a possibly-absent ( `undefined` )
JavaScript value, as in the source expression `^$\x7bpackageJson.version\x7d`. -/
def jsCoerce : Option Json → String
  | none => "undefined"
  | some v => jsToStr v

/-! ## Version Resolver (bin.ts lines 140-153, `resolvePackageVersion`) -/

/-- Outcome of the registry fetch `request(...)` followed by
`response.body.json()`: either some step threw (network error, malformed
body, ...) or a parsed JSON body was obtained. -/
inductive FetchOutcome where
  | failure
  | success (body : Json)

/-- The single warning line printed by `resolvePackageVersion`'s catch
branch (ANSI styling from `kleur` modelled as identity). -/
def warnResolveFailed (packageName range : String) : String :=
  "✘ Failed to resolve package version for " ++ packageName ++ ", using " ++ range ++ " instead"

/-- `resolvePackageVersion` from bin.ts: on a successful fetch it returns
the caret-prefixed interpolation of the body's `version` field (property
access on a `null` body throws and lands in the catch branch); on any
thrown failure it prints one warning and returns the range argument.
Result: the returned string paired with the list of printed warnings. -/
def resolvePackageVersion (fetch : String → String → FetchOutcome)
    (packageName : String) (range : String) : String × List String :=
  match fetch packageName range with
  | FetchOutcome.failure => (range, [warnResolveFailed packageName range])
  | FetchOutcome.success Json.null => (range, [warnResolveFailed packageName range])
  | FetchOutcome.success body => ("^" ++ jsCoerce (jsGetField body "version"), [])

/-- The default for `resolvePackageVersion`'s `range` parameter
(bin.ts line 140: `range = 'latest'`). -/
def defaultRange : String := "latest"

/-! ## Dependency resolution for extras (bin.ts lines 177-205) -/

/-- The `devDeps` table of bin.ts lines 193-200: per-extra package lists. -/
def devDeps : List (String × List String) :=
  [("@changesets/cli", ["@changesets/cli", "@svitejs/changesets-changelog-github-compact"]),
   ("tailwindcss", ["tailwindcss", "postcss", "autoprefixer"])]

/-- Inner loop of `resolveDeps`: resolve each package of one extra with
the default range, collecting the resolved pairs and printed warnings. -/
def resolveList (fetch : String → String → FetchOutcome) :
    List String → List (String × String) × List String
  | [] => ([], [])
  | pkg :: rest =>
    let r := resolvePackageVersion fetch pkg defaultRange
    let t := resolveList fetch rest
    ((pkg, r.1) :: t.1, r.2 ++ t.2)

/-- Outer loop of `resolveDeps`: walk the `devDeps` table, skipping
entries whose name the user did not select among the extras. -/
def resolveDepsAux (extras : List String) (fetch : String → String → FetchOutcome) :
    List (String × List String) → List (String × String) × List String
  | [] => ([], [])
  | (name, packages) :: rest =>
    let t := resolveDepsAux extras fetch rest
    if extras.contains name then
      let h := resolveList fetch packages
      (h.1 ++ t.1, h.2 ++ t.2)
    else t

/-- `resolveDeps devDeps` of bin.ts lines 179-191: the resolved
dev-dependency map (as an ordered association list) and all warnings
printed while building it. -/
def resolveDeps (extras : List String) (fetch : String → String → FetchOutcome) :
    List (String × String) × List String :=
  resolveDepsAux extras fetch devDeps

/-- The overlay document `newPackageJson` of bin.ts lines 202-205: the
resolved dev-dependencies plus an empty `scripts` object. -/
def overlayJson (resolved : List (String × String)) : Json :=
  Json.obj [("devDependencies", Json.obj (resolved.map (fun p => (p.1, Json.str p.2)))),
            ("scripts", Json.obj [])]

/-! ## Dependency Merger -/

mutual

/-- Modelled from the spec: the `json-merger` library's structural merge of
two documents (the library is an external dependency, not part of this
repository). Per spec section 4.3: for each key present in either
document, if only one side defines it that value is used; if both sides
define a mapping at that key, merge recursively; otherwise (scalar or
array on either side) the overlay's value wins. -/
def mergeJson : Json → Json → Json
  | Json.obj bs, Json.obj os =>
      Json.obj (mergeBase bs os ++ os.filter (fun q => !(bs.any (fun p => p.1 == q.1))))
  | _, o => o

/-- Modelled from the spec: the per-base-key part of the structural merge -
every key of the base document keeps its value, recursively merged with
the overlay's value at that key when the overlay also defines it. -/
def mergeBase : List (String × Json) → List (String × Json) → List (String × Json)
  | [], _ => []
  | (k, v) :: rest, os =>
      (match os.find? (fun q => q.1 == k) with
       | some q => (k, mergeJson v q.2)
       | none => (k, v)) :: mergeBase rest os

end

/-- Modelled from the spec: `merger.mergeObjects` applied to a list of
documents, folding the two-document merge left-to-right (bin.ts line 207
calls it with exactly two documents). -/
def mergeObjects : List Json → Json
  | [] => Json.null
  | d :: rest => rest.foldl mergeJson d

/-- Discriminator for the mapping case of the merge. -/
def isJsonObj : Json → Bool
  | Json.obj _ => true
  | _ => false

/-! ## Configuration, environment and observable events of the run -/

/-- The type-checking choice of the first prompt (bin.ts lines 53-68);
the source values are the strings `checkjs`, `typescript` and `null`. -/
inductive TypesChoice where
  | checkjs
  | typescript
  | noTypes
deriving DecidableEq, Repr

/-- Configuration Choices: the record collected by the `p.group` prompt
sequence (bin.ts lines 51-136). -/
structure Options where
  types : TypesChoice
  features : List String
  extras : List String
  git : Bool
  packageManager : String
  install : Bool
deriving Repr

/-- Result of the `p.text` directory prompt: the user cancelled, or
entered a string (possibly empty, meaning keep the current directory). -/
inductive TextResult where
  | cancel
  | entry (s : String)
deriving DecidableEq, Repr

/-- Result of the `p.confirm` not-empty-directory prompt: the user
cancelled, or answered yes/no. -/
inductive ConfirmResult where
  | cancel
  | answer (b : Bool)
deriving DecidableEq, Repr

/-- Environment oracle for the external world: generator success, the
exit status of each `execa` subprocess invocation (true = exit 0), the
registry fetch outcome per package and range, and the filesystem probes
`fs.existsSync` and `fs.readdirSync(..).length > 0`. -/
structure Env where
  genOk : Bool
  execOk : String → List String → Bool
  fetch : String → String → FetchOutcome
  existsSync : String → Bool
  readdirNonEmpty : String → Bool

/-- One full input to the script: the positional argument, the answers to
the two pre-group prompts, the collected Configuration Choices, and the
environment oracle. -/
structure Input where
  argv2 : Option String
  dirText : TextResult
  forceAnswer : ConfirmResult
  options : Options
  env : Env

/-- Observable events of a run, in order: prompt displays, the generator
delegation, console prints, `p.note` panels, spinner messages, file
writes, template copies, and subprocess invocations (with their working
directory). -/
inductive Event where
  | textPrompt
  | confirmPrompt
  | generator (dir : String)
  | printLine (s : String)
  | note (message : String) (title : String)
  | spinnerStart (s : String)
  | spinnerStop (s : String)
  | writeFile (dir : String) (name : String)
  | copyTemplate (template : String) (dir : String)
  | execa (cmd : String) (args : List String) (dir : String)
deriving DecidableEq, Repr

/-- How the process ends: an explicit `process.exit(code)`, an unhandled
promise rejection (no catch around the failing await), or the `create()`
promise resolving, after which Node exits with code 0. -/
inductive Outcome where
  | exited (code : Nat)
  | crashed
  | completed
deriving DecidableEq, Repr

/-- One step of a guarded try-block: a subprocess invocation or a
template copy. -/
inductive Action where
  | exec (cmd : String) (args : List String)
  | copyT (template : String)
deriving DecidableEq, Repr

/-! ## The Scaffold Controller, stage by stage (bin.ts `create`) -/

/-- The argument part of target-directory resolution, bin.ts line 23:
`process.argv[2] || '.'` (an empty argument is falsy). -/
def argCwd (argv2 : Option String) : String :=
  match argv2 with
  | some s => if s = "" then "." else s
  | none => "."

/-- Target-directory resolution, bin.ts lines 23-37: the interactive
directory prompt is shown when the argument part resolved to `.`; cancel
exits (returned as `none`), an empty entry keeps `.`, any other entry
becomes the target. Returns the emitted events and the resolved
directory. -/
def resolveCwd (argv2 : Option String) (dirText : TextResult) :
    List Event × Option String :=
  if argCwd argv2 = "." then
    match dirText with
    | TextResult.cancel => ([Event.textPrompt], none)
    | TextResult.entry d => ([Event.textPrompt], some (if d = "" then "." else d))
  else ([], some (argCwd argv2))

/-- The not-empty-directory confirmation gate, bin.ts lines 39-49: the
prompt appears only for an existing directory with entries, and anything
but an explicit yes (`force !== true`) bails out. Returns the emitted
events and whether the run proceeds. -/
def dirGate (env : Env) (cwd : String) (force : ConfirmResult) : List Event × Bool :=
  if env.existsSync cwd then
    if env.readdirNonEmpty cwd then
      match force with
      | ConfirmResult.answer true => ([Event.confirmPrompt], true)
      | _ => ([Event.confirmPrompt], false)
    else ([], true)
  else ([], true)

/-- The base template set chosen at bin.ts lines 216-222: `typescript`
exactly when the types choice is `typescript`, otherwise `javascript`. -/
def baseTemplate (t : TypesChoice) : String :=
  if t = TypesChoice.typescript then "typescript" else "javascript"

/-- The install block, bin.ts lines 225-238: skipped when install was not
requested; otherwise the package manager's `install` is run, and on
failure the spinner reports it, a note is shown, and `options.install` is
flipped to false. Returns the events and the install flag afterwards. -/
def installBlock (env : Env) (cwd pm : String) (install : Bool) : List Event × Bool :=
  if install then
    if env.execOk pm ["install"] then
      ([Event.spinnerStart ("Installing dependencies using " ++ pm),
        Event.execa pm ["install"] cwd,
        Event.spinnerStop ("Installed dependencies using " ++ pm)], true)
    else
      ([Event.spinnerStart ("Installing dependencies using " ++ pm),
        Event.execa pm ["install"] cwd,
        Event.spinnerStop "Failed to install dependencies",
        Event.note "You can install them manually." ""], false)
  else ([], install)

/-- The version-control block, bin.ts lines 240-245: `git init`, `git add
-A`, `git commit` run back to back with no try/catch, so the first
non-zero exit leaves the enclosing async function with an unhandled
rejection. Returns the events and whether the block finished. -/
def gitBlock (env : Env) (cwd : String) (git : Bool) : List Event × Bool :=
  if git then
    if env.execOk "git" ["init"] then
      if env.execOk "git" ["add", "-A"] then
        if env.execOk "git" ["commit", "-m", "Initial commit"] then
          ([Event.execa "git" ["init"] cwd,
            Event.execa "git" ["add", "-A"] cwd,
            Event.execa "git" ["commit", "-m", "Initial commit"] cwd], true)
        else
          ([Event.execa "git" ["init"] cwd,
            Event.execa "git" ["add", "-A"] cwd,
            Event.execa "git" ["commit", "-m", "Initial commit"] cwd], false)
      else
        ([Event.execa "git" ["init"] cwd,
          Event.execa "git" ["add", "-A"] cwd], false)
    else ([Event.execa "git" ["init"] cwd], false)
  else ([], true)

/-- Run the body of a try-block: each action in order, a failing
subprocess emitting its invocation and then jumping to the catch (copies
are modelled as succeeding). Returns the events and whether the whole
body ran. -/
def runTry (env : Env) (cwd : String) : List Action → List Event × Bool
  | [] => ([], true)
  | Action.copyT t :: rest =>
    let r := runTry env cwd rest
    (Event.copyTemplate t cwd :: r.1, r.2)
  | Action.exec c a :: rest =>
    if env.execOk c a then
      let r := runTry env cwd rest
      (Event.execa c a cwd :: r.1, r.2)
    else ([Event.execa c a cwd], false)

/-- Shape shared by the two extras blocks (bin.ts lines 247-276): start a
spinner, try the block's actions, and either report success or report
failure plus a manual-recovery note. -/
def extraBlock (env : Env) (cwd : String)
    (startMsg okMsg failMsg noteMsg noteTitle : String) (acts : List Action) :
    List Event :=
  let r := runTry env cwd acts
  Event.spinnerStart startMsg :: r.1 ++
    (if r.2 then [Event.spinnerStop okMsg]
     else [Event.spinnerStop failMsg, Event.note noteMsg noteTitle])

/-- Actions of the changesets extra block, bin.ts lines 252-255. -/
def changesetActions : List Action :=
  [Action.exec "npx" ["changeset", "init"],
   Action.copyT "changesets",
   Action.exec "git" ["add", "-A"],
   Action.exec "git" ["commit", "-m", "feat: added changeset"]]

/-- Actions of the tailwindcss extra block, bin.ts lines 266-270. -/
def tailwindActions : List Action :=
  [Action.exec "npx" ["tailwindcss", "init", "-p"],
   Action.copyT "tailwind",
   Action.exec "git" ["add", "-A"],
   Action.exec "git" ["commit", "-m", "feat: added tailwindcss"]]

/-- The changesets extra block, bin.ts lines 247-261. -/
def changesetsBlock (env : Env) (cwd : String) (extras : List String) : List Event :=
  if extras.contains "@changesets/cli" then
    extraBlock env cwd "Initializing changesets" "Initialized changesets"
      "Failed to initialize changesets" "npx changeset init"
      "Initialize changesets manually." changesetActions
  else []

/-- The tailwindcss extra block, bin.ts lines 263-276. -/
def tailwindBlock (env : Env) (cwd : String) (extras : List String) : List Event :=
  if extras.contains "tailwindcss" then
    extraBlock env cwd "Initializing tailwindcss" "Initialized tailwindcss"
      "Failed to initialize tailwindcss" "npx tailwindcss init -p"
      "Initialize tailwindcss manually." tailwindActions
  else []

/-- The per-choice confirmation lines of the summary, bin.ts lines
280-322 (styling modelled as identity). -/
def featureLines (options : Options) : List String :=
  (if options.types = TypesChoice.typescript then
    ["✔ Typescript", "  Inside Svelte components, use <script lang=\"ts\">"]
   else if options.types = TypesChoice.checkjs then
    ["✔ Type-checked JavaScript", "  https://www.typescriptlang.org/tsconfig#checkJs"]
   else [])
  ++ (if options.features.contains "eslint" then
      ["✔ ESLint", "  https://github.com/sveltejs/eslint-plugin-svelte"] else [])
  ++ (if options.features.contains "prettier" then
      ["✔ Prettier", "  https://prettier.io/docs/en/options.html",
       "  https://github.com/sveltejs/prettier-plugin-svelte#options"] else [])
  ++ (if options.features.contains "playwright" then
      ["✔ Playwright", "  https://playwright.dev"] else [])
  ++ (if options.features.contains "vitest" then
      ["✔ Vitest", "  https://vitest.dev"] else [])
  ++ (if options.extras.contains "@changesets/cli" then
      ["✔ Changesets", "  https://github.com/changesets/changesets"] else [])
  ++ (if options.extras.contains "tailwindcss" then
      ["✔ Tailwindcss", "  https://tailwindcss.com/docs"] else [])
  ++ (if options.git then ["✔ Git", "  Initialized a git repository."] else [])

/-- The manual-install next-step line of bin.ts line 330. -/
def manualInstallLine (step : Nat) (pm : String) : String :=
  "  " ++ toString step ++ ": " ++ pm ++ " install"

/-- The manual-git next-step line of bin.ts line 333. -/
def manualGitLine (step : Nat) : String :=
  "  " ++ toString step ++ ": git init && git add -A && git commit -m \"Initial commit\" (optional)"

/-- Model of Node's `path.relative(process.cwd(), cwd)` for the directory
strings this script passes it: the current directory `.` is at relative
path the empty string, any other target is returned as given. -/
def pathRelative (cwd : String) : String :=
  if cwd = "." then "" else cwd

/-- The next-steps list of bin.ts lines 324-337, with its running step
counter. -/
def nextStepsLines (relative pm : String) (installFlag gitFlag : Bool) : List String :=
  let s1 : Nat := 1
  let cdL : List String := if relative = "" then [] else ["  " ++ toString s1 ++ ": cd " ++ relative]
  let s2 := if relative = "" then s1 else s1 + 1
  let insL : List String := if installFlag then [] else [manualInstallLine s2 pm]
  let s3 := if installFlag then s2 else s2 + 1
  let gitL : List String := if gitFlag then [] else [manualGitLine s3]
  let s4 := if gitFlag then s3 else s3 + 1
  "Next steps:" :: (cdL ++ insL ++ gitL
    ++ ["  " ++ toString s4 ++ ": " ++ pm ++ " run dev -- --open",
        "To close the dev server, hit Ctrl-C"])

/-- Everything printed after `p.outro`, bin.ts lines 280-337. -/
def summaryLines (options : Options) (installFlag : Bool) (cwd : String) : List String :=
  featureLines options
    ++ nextStepsLines (pathRelative cwd) options.packageManager installFlag options.git

/-- Events from the generator delegation up to the base template copy,
bin.ts lines 158-222: generator, version-resolution spinner with its
warnings, the merged manifest write, and the base template copy. -/
def preTrace (env : Env) (options : Options) (cwd : String) : List Event :=
  let rd := resolveDeps options.extras env.fetch
  [Event.generator cwd, Event.spinnerStart "Resolving package versions"]
    ++ rd.2.map Event.printLine
    ++ [Event.spinnerStop "Resolved package versions",
        Event.writeFile cwd "package.json",
        Event.copyTemplate (baseTemplate options.types) cwd]

/-- The run from the generator delegation onwards, bin.ts lines 158-337:
a generator failure is fatal (nothing catches it); then dependency
resolution and manifest rewrite, base template copy, the install block,
the unguarded git block (whose failure crashes the run), the two extras
blocks, and the summary. -/
def mainTrace (env : Env) (options : Options) (cwd : String) : List Event × Outcome :=
  if env.genOk then
    let ib := installBlock env cwd options.packageManager options.install
    let gb := gitBlock env cwd options.git
    if gb.2 then
      (preTrace env options cwd ++ ib.1 ++ gb.1
        ++ changesetsBlock env cwd options.extras
        ++ tailwindBlock env cwd options.extras
        ++ [Event.printLine "Your project is ready!"]
        ++ (summaryLines options ib.2 cwd).map Event.printLine,
       Outcome.completed)
    else (preTrace env options cwd ++ ib.1 ++ gb.1, Outcome.crashed)
  else ([Event.generator cwd], Outcome.crashed)

/-- The whole `create` run of bin.ts: directory resolution, the
not-empty gate, then the main sequence. Returns the event trace and the
process outcome. -/
def create (inp : Input) : List Event × Outcome :=
  let r := resolveCwd inp.argv2 inp.dirText
  match r.2 with
  | none => (r.1, Outcome.exited 1)
  | some cwd =>
    let g := dirGate inp.env cwd inp.forceAnswer
    if g.2 then
      let m := mainTrace inp.env inp.options cwd
      (r.1 ++ g.1 ++ m.1, m.2)
    else (r.1 ++ g.1, Outcome.exited 1)

/-- Events that put file contents into the target directory: the manifest
write, any template copy, and the generator delegation itself. -/
def writesFiles : Event → Bool
  | Event.writeFile _ _ => true
  | Event.copyTemplate _ _ => true
  | Event.generator _ => true
  | _ => false

/-- Events that display a `p.note` recovery panel. -/
def isNote : Event → Bool
  | Event.note _ _ => true
  | _ => false

/-! ## Concrete environments and inputs used to evaluate the model -/

/-- An environment where every subprocess succeeds, every registry fetch
fails (offline), and the target directory does not exist yet. -/
def envAllOk : Env :=
  { genOk := true
    execOk := fun _ _ => true
    fetch := fun _ _ => FetchOutcome.failure
    existsSync := fun _ => false
    readdirNonEmpty := fun _ => false }

/-- Like `envAllOk` but every `git` subprocess exits non-zero. -/
def envGitFails : Env :=
  { envAllOk with execOk := fun c _ => !(c == "git") }

/-- Like `envAllOk` but the package-manager `install` exits non-zero. -/
def envInstallFails : Env :=
  { envAllOk with execOk := fun _ a => !(a == ["install"]) }

/-- A baseline set of collected choices. -/
def baseOptions : Options :=
  { types := TypesChoice.checkjs
    features := []
    extras := []
    git := true
    packageManager := "npm"
    install := true }

/-- A run that requests version control in an environment where `git init`
exits non-zero. -/
def inputGitFails : Input :=
  { argv2 := some "my-lib"
    dirText := TextResult.entry ""
    forceAnswer := ConfirmResult.answer true
    options := { baseOptions with install := false }
    env := envGitFails }

/-- A run selecting only the tailwindcss extra with git declined, in an
environment where every subprocess succeeds. -/
def inputTailwindNoGit : Input :=
  { argv2 := some "my-lib"
    dirText := TextResult.entry ""
    forceAnswer := ConfirmResult.answer true
    options := { baseOptions with extras := ["tailwindcss"], git := false, install := false }
    env := envAllOk }

/-- A run where the install subprocess exits non-zero and git was
declined. -/
def inputInstallFails : Input :=
  { argv2 := some "my-lib"
    dirText := TextResult.entry ""
    forceAnswer := ConfirmResult.answer true
    options := { baseOptions with git := false }
    env := envInstallFails }

/-- A run into an existing non-empty directory where the user declines
the confirmation prompt. -/
def inputDeclined : Input :=
  { argv2 := some "occupied"
    dirText := TextResult.entry ""
    forceAnswer := ConfirmResult.answer false
    options := baseOptions
    env := { envAllOk with existsSync := fun _ => true, readdirNonEmpty := fun _ => true } }

/-- A run with no positional argument whose directory prompt is
cancelled. -/
def inputPromptCancel : Input :=
  { argv2 := none
    dirText := TextResult.cancel
    forceAnswer := ConfirmResult.answer true
    options := baseOptions
    env := envAllOk }

/-- A fetch oracle that always fails. -/
def fetchFail : String → String → FetchOutcome := fun _ _ => FetchOutcome.failure

/-- A registry body carrying a pinned version. -/
def pkgBody : Json := Json.obj [("version", Json.str "3.4.1")]

/-- A fetch oracle that always succeeds with `pkgBody`. -/
def fetchPinned : String → String → FetchOutcome := fun _ _ => FetchOutcome.success pkgBody

/-- A registry body that parses as JSON but has no `version` field. -/
def bodyNoVersion : Json := Json.obj [("name", Json.str "postcss")]

/-- A fetch oracle returning `bodyNoVersion`. -/
def fetchNoVersion : String → String → FetchOutcome := fun _ _ => FetchOutcome.success bodyNoVersion

/-! ## Version Resolver theorems -/

/-- C2: for every package name and range, the Version Resolver never
throws past its own boundary (it is a total function into a result
string and a warning list): on a thrown failure, including the
property-access throw on a `null` body, it prints exactly the one warning
line and returns the original range unchanged; on a successful fetch of a
real body it returns a caret-prefixed string and prints nothing. -/
theorem resolvePackageVersion_boundary (fetch : String → String → FetchOutcome)
    (name range : String) :
    (fetch name range = FetchOutcome.failure →
      resolvePackageVersion fetch name range = (range, [warnResolveFailed name range]))
    ∧ (∀ body, fetch name range = FetchOutcome.success body → body ≠ Json.null →
        (∃ s, (resolvePackageVersion fetch name range).1 = "^" ++ s)
          ∧ (resolvePackageVersion fetch name range).2 = [])
    ∧ (fetch name range = FetchOutcome.success Json.null →
        resolvePackageVersion fetch name range = (range, [warnResolveFailed name range])) := by
  refine ⟨fun h => by simp [resolvePackageVersion, h], fun body h hb => ?_,
    fun h => by simp [resolvePackageVersion, h]⟩
  cases body <;> simp [resolvePackageVersion, h] at hb ⊢

/-- Witness for C2: a failing fetch falls back to the range with one
warning; a successful fetch of a pinned body yields a caret prefix. -/
theorem resolvePackageVersion_boundary_witness :
    resolvePackageVersion fetchFail "tailwindcss" "latest"
        = ("latest", [warnResolveFailed "tailwindcss" "latest"])
    ∧ (∃ s, (resolvePackageVersion fetchPinned "tailwindcss" "latest").1 = "^" ++ s) :=
  ⟨(resolvePackageVersion_boundary fetchFail "tailwindcss" "latest").1 rfl,
   ((resolvePackageVersion_boundary fetchPinned "tailwindcss" "latest").2.1 pkgBody rfl
      (by intro h; simp [pkgBody] at h)).1⟩

/-- C9: the success path performs no shape validation: a body that parses
as JSON but lacks a `version` field (any non-null body, since property
access only throws on null) makes the resolver return the interpolation
`^undefined` with no warning, rather than the fallback range. -/
theorem resolvePackageVersion_no_shape_validation (fetch : String → String → FetchOutcome)
    (name range : String) (body : Json)
    (h1 : fetch name range = FetchOutcome.success body)
    (h2 : jsGetField body "version" = none)
    (h3 : body ≠ Json.null) :
    resolvePackageVersion fetch name range = ("^undefined", []) := by
  cases body <;> simp_all [resolvePackageVersion, jsCoerce]

/-- Witness for C9: a registry body with only a `name` field resolves to
the literal string `^undefined`. -/
theorem resolvePackageVersion_no_shape_validation_witness :
    resolvePackageVersion fetchNoVersion "postcss" "latest" = ("^undefined", []) :=
  resolvePackageVersion_no_shape_validation fetchNoVersion "postcss" "latest" bodyNoVersion
    rfl (by simp [bodyNoVersion, jsGetField]) (by intro h; simp [bodyNoVersion] at h)

/-! ## Dependency-overlay theorems -/

/-- The inner resolve loop visits exactly the given packages, in order. -/
theorem resolveList_fst (fetch : String → String → FetchOutcome) (pkgs : List String) :
    (resolveList fetch pkgs).1.map Prod.fst = pkgs := by
  induction pkgs with
  | nil => simp [resolveList]
  | cons p rest ih => simp [resolveList, ih]

/-- Every pair produced by the inner loop is the resolution of its own
package at the default range. -/
theorem resolveList_mem (fetch : String → String → FetchOutcome) (pkgs : List String)
    (pv : String × String) (h : pv ∈ (resolveList fetch pkgs).1) :
    pv.2 = (resolvePackageVersion fetch pv.1 defaultRange).1 := by
  induction pkgs with
  | nil => simp [resolveList] at h
  | cons p rest ih =>
    simp only [resolveList, List.mem_cons] at h
    rcases h with h | h
    · subst h; rfl
    · exact ih h

/-- The outer loop's keys are the concatenated package lists of the
selected table entries. -/
theorem resolveDepsAux_fst (extras : List String) (fetch : String → String → FetchOutcome)
    (deps : List (String × List String)) :
    (resolveDepsAux extras fetch deps).1.map Prod.fst =
      (deps.filter (fun d => extras.contains d.1)).flatMap Prod.snd := by
  induction deps with
  | nil => simp [resolveDepsAux]
  | cons d rest ih =>
    obtain ⟨name, packages⟩ := d
    by_cases hn : name ∈ extras
    · simp [resolveDepsAux, hn, List.filter_cons, resolveList_fst, ih]
    · simp [resolveDepsAux, hn, List.filter_cons, ih]

/-- Every pair produced by the outer loop is the resolution of its own
package at the default range. -/
theorem resolveDepsAux_mem (extras : List String) (fetch : String → String → FetchOutcome)
    (deps : List (String × List String)) (pv : String × String)
    (h : pv ∈ (resolveDepsAux extras fetch deps).1) :
    pv.2 = (resolvePackageVersion fetch pv.1 defaultRange).1 := by
  induction deps with
  | nil => simp [resolveDepsAux] at h
  | cons d rest ih =>
    obtain ⟨name, packages⟩ := d
    by_cases hn : name ∈ extras
    · simp only [resolveDepsAux] at h
      rw [if_pos (by simp [hn])] at h
      rcases List.mem_append.mp h with h | h
      · exact resolveList_mem fetch packages pv h
      · exact ih h
    · simp only [resolveDepsAux] at h
      rw [if_neg (by simp [hn])] at h
      exact ih h

/-- C8: the overlay's devDependencies keys are exactly the concatenation
of the per-extra package lists of the selected `devDeps` entries (so
empty when no extra is selected), and every entry's value is the
resolution of that package at the default range, whose fallback on a
fetch failure is exactly the default range string `latest`. -/
theorem resolveDeps_overlay (extras : List String) (fetch : String → String → FetchOutcome) :
    (resolveDeps extras fetch).1.map Prod.fst =
      (devDeps.filter (fun d => extras.contains d.1)).flatMap Prod.snd
    ∧ ∀ pv ∈ (resolveDeps extras fetch).1,
        pv.2 = (resolvePackageVersion fetch pv.1 defaultRange).1
        ∧ (fetch pv.1 defaultRange = FetchOutcome.failure → pv.2 = defaultRange) := by
  refine ⟨resolveDepsAux_fst extras fetch devDeps, fun pv h => ?_⟩
  have hv := resolveDepsAux_mem extras fetch devDeps pv h
  refine ⟨hv, fun hf => ?_⟩
  rw [hv, (resolvePackageVersion_boundary fetch pv.1 defaultRange).1 hf]

/-- Witness for C8: selecting only the tailwind extra in an offline
environment yields exactly its three packages, each at `latest`. -/
theorem resolveDeps_overlay_witness :
    (resolveDeps ["tailwindcss"] fetchFail).1.map Prod.fst =
      (devDeps.filter (fun d => List.contains ["tailwindcss"] d.1)).flatMap Prod.snd
    ∧ ("postcss", "latest") ∈ (resolveDeps ["tailwindcss"] fetchFail).1
    ∧ ("postcss", "latest").2 = defaultRange :=
  ⟨(resolveDeps_overlay ["tailwindcss"] fetchFail).1,
   by decide,
   ((resolveDeps_overlay ["tailwindcss"] fetchFail).2 ("postcss", "latest") (by decide)).2 rfl⟩

/-! ## Dependency Merger theorems -/

/-- Unfolding equation for the mapping case of the merge. -/
theorem mergeJson_obj_obj (bs os : List (String × Json)) :
    mergeJson (Json.obj bs) (Json.obj os) =
      Json.obj (mergeBase bs os ++ os.filter (fun q => !(bs.any (fun p => p.1 == q.1)))) := by
  simp [mergeJson]

/-- Key lookup over the per-base-key part of the merge: each base key is
present with its (possibly recursively merged) value. -/
theorem find?_mergeBase (bs os : List (String × Json)) (k : String) :
    (mergeBase bs os).find? (fun q => q.1 == k) =
      (bs.find? (fun q => q.1 == k)).map (fun p =>
        match os.find? (fun q => q.1 == p.1) with
        | some q => (p.1, mergeJson p.2 q.2)
        | none => p) := by
  induction bs with
  | nil => simp [mergeBase]
  | cons hd tl ih =>
    obtain ⟨k0, v0⟩ := hd
    by_cases hk : (k0 == k) = true
    · have hk2 : k0 = k := by simpa using hk
      subst hk2
      cases hos : os.find? (fun q => q.1 == k0) <;>
        simp [mergeBase, hos]
    · cases hos : os.find? (fun q => q.1 == k0) <;>
        simp [mergeBase, hos, hk, ih]

/-- Key lookup over the overlay-only part of the merge: when the base
does not define a key, filtering out base-owned keys does not change the
overlay's lookup result for it. -/
theorem find?_overlayOnly (bs os : List (String × Json)) (k : String)
    (hb : bs.find? (fun q => q.1 == k) = none) :
    (os.filter (fun q => !(bs.any (fun p => p.1 == q.1)))).find? (fun q => q.1 == k) =
      os.find? (fun q => q.1 == k) := by
  induction os with
  | nil => simp
  | cons q0 tl ih =>
    by_cases hq : (q0.1 == k) = true
    · have hq2 : q0.1 = k := by simpa using hq
      have hkeep : (bs.any (fun p => p.1 == q0.1)) = false := by
        rw [List.any_eq_false]
        intro p hp hpq
        have hkey : (p.1 == k) = true := by rw [← hq2]; exact hpq
        exact (List.find?_eq_none.mp hb p hp) hkey
      simp [List.filter_cons, hkeep, hq]
    · cases hany : (bs.any (fun p => p.1 == q0.1)) <;>
        simp [List.filter_cons, hany, hq, ih]

/-- When the two documents share no keys, the per-base-key part of the
merge leaves the base untouched. -/
theorem mergeBase_of_disjoint (bs os : List (String × Json))
    (h : ∀ p ∈ bs, ∀ q ∈ os, p.1 ≠ q.1) : mergeBase bs os = bs := by
  induction bs with
  | nil => simp [mergeBase]
  | cons hd tl ih =>
    have hfind : os.find? (fun q => q.1 == hd.1) = none := by
      rw [List.find?_eq_none]
      intro q hq hbe
      have hbe2 : q.1 = hd.1 := by simpa using hbe
      exact (h hd (List.mem_cons_self hd tl) q hq) hbe2.symm
    obtain ⟨k0, v0⟩ := hd
    rw [mergeBase, hfind, ih (fun p hp q hq => h p (List.mem_cons_of_mem _ hp) q hq)]

/-- When the two documents share no keys, the overlay survives the
base-owned-key filter in full. -/
theorem overlayOnly_of_disjoint (bs os : List (String × Json))
    (h : ∀ p ∈ bs, ∀ q ∈ os, p.1 ≠ q.1) :
    os.filter (fun q => !(bs.any (fun p => p.1 == q.1))) = os := by
  rw [List.filter_eq_self]
  intro q hq
  simp only [Bool.not_eq_true', List.any_eq_false]
  intro p hp hpq
  exact (h p hp q hq) (by simpa using hpq)

/-- C6: the Dependency Merger satisfies the documented structural-merge
contract. First conjunct: at every key, a key defined on only one side
keeps that value (so extra base keys are carried through untouched), and
a key defined on both sides holds the recursive merge of the two values -
which, by the last two conjuncts, is the recursive merge of two mappings
and the overlay's value whenever either side is a scalar or array. Second
conjunct: documents sharing no keys merge to their union. The merge is a
total function, so it always produces a result. -/
theorem mergeObjects_spec (bs os : List (String × Json)) (k : String) :
    (jsGetField (mergeJson (Json.obj bs) (Json.obj os)) k =
      match jsGetField (Json.obj bs) k, jsGetField (Json.obj os) k with
      | some bv, some ov => some (mergeJson bv ov)
      | some bv, none => some bv
      | none, some ov => some ov
      | none, none => none)
    ∧ ((∀ p ∈ bs, ∀ q ∈ os, p.1 ≠ q.1) →
        mergeJson (Json.obj bs) (Json.obj os) = Json.obj (bs ++ os))
    ∧ (∀ b o : Json, isJsonObj b = false ∨ isJsonObj o = false → mergeJson b o = o)
    ∧ mergeObjects [Json.obj bs, Json.obj os] = mergeJson (Json.obj bs) (Json.obj os) := by
  refine ⟨?_, ?_, ?_, by simp [mergeObjects]⟩
  · rw [mergeJson_obj_obj]
    simp only [jsGetField]
    rw [List.find?_append, find?_mergeBase]
    cases hb : bs.find? (fun q => q.1 == k) with
    | none =>
      rw [find?_overlayOnly bs os k hb]
      cases hos : os.find? (fun q => q.1 == k) <;> simp
    | some p =>
      have hp : p.1 = k := by simpa using List.find?_some hb
      simp only [Option.map_some', Option.or_some, hp]
      cases hos : os.find? (fun q => q.1 == k) <;> simp [hos]
  · intro h
    rw [mergeJson_obj_obj, mergeBase_of_disjoint bs os h, overlayOnly_of_disjoint bs os h]
  · intro b o h
    cases b <;> cases o <;> simp_all [isJsonObj, mergeJson]

/-- Witness for C6: two concrete disjoint documents merge to their
union. -/
theorem mergeObjects_spec_witness :
    (∀ p ∈ [("name", Json.str "my-lib")], ∀ q ∈ [("scripts", Json.obj [])],
        p.1 ≠ q.1)
    ∧ mergeJson (Json.obj [("name", Json.str "my-lib")]) (Json.obj [("scripts", Json.obj [])])
        = Json.obj ([("name", Json.str "my-lib")] ++ [("scripts", Json.obj [])]) :=
  ⟨by decide,
   (mergeObjects_spec [("name", Json.str "my-lib")] [("scripts", Json.obj [])] "name").2.1
     (by decide)⟩

/-! ## Scaffold Controller helper lemmas -/

/-- The directory-resolution stage emits at most the text prompt. -/
theorem resolveCwd_mem (argv2 : Option String) (dt : TextResult) (e : Event)
    (h : e ∈ (resolveCwd argv2 dt).1) : e = Event.textPrompt := by
  unfold resolveCwd at h
  by_cases hdot : argCwd argv2 = "."
  · rw [if_pos hdot] at h
    cases dt <;> simp_all
  · rw [if_neg hdot] at h
    simp at h

/-- The confirmation gate emits at most the confirm prompt. -/
theorem dirGate_mem (env : Env) (cwd : String) (f : ConfirmResult) (e : Event)
    (h : e ∈ (dirGate env cwd f).1) : e = Event.confirmPrompt := by
  unfold dirGate at h
  by_cases h1 : env.existsSync cwd = true
  · rw [if_pos h1] at h
    by_cases h2 : env.readdirNonEmpty cwd = true
    · rw [if_pos h2] at h
      rcases f with _ | b
      · simp_all
      · cases b <;> simp_all
    · rw [if_neg h2] at h; simp at h
  · rw [if_neg h1] at h; simp at h

/-- An empty or nonexistent target skips the gate entirely. -/
theorem dirGate_empty (env : Env) (cwd : String) (f : ConfirmResult)
    (h : (env.existsSync cwd && env.readdirNonEmpty cwd) = false) :
    dirGate env cwd f = ([], true) := by
  cases h1 : env.existsSync cwd <;> cases h2 : env.readdirNonEmpty cwd <;>
    simp_all [dirGate]

/-- An existing non-empty target always shows the confirm prompt. -/
theorem dirGate_nonempty (env : Env) (cwd : String) (f : ConfirmResult)
    (h : (env.existsSync cwd && env.readdirNonEmpty cwd) = true) :
    (dirGate env cwd f).1 = [Event.confirmPrompt] := by
  obtain ⟨h1, h2⟩ := Bool.and_eq_true_iff.mp h
  unfold dirGate
  rw [if_pos h1, if_pos h2]
  rcases f with _ | b
  · rfl
  · cases b <;> rfl

/-- Anything but an explicit yes at the gate stops the run. -/
theorem dirGate_reject (env : Env) (cwd : String) (f : ConfirmResult)
    (h : (env.existsSync cwd && env.readdirNonEmpty cwd) = true)
    (hf : f ≠ ConfirmResult.answer true) : (dirGate env cwd f).2 = false := by
  obtain ⟨h1, h2⟩ := Bool.and_eq_true_iff.mp h
  unfold dirGate
  rw [if_pos h1, if_pos h2]
  rcases f with _ | b
  · rfl
  · cases b
    · rfl
    · exact absurd rfl hf

/-- Every event of a try-block body is an invocation or a copy of one of
its own actions, in the block's working directory. -/
theorem runTry_mem (env : Env) (cwd : String) (acts : List Action) (e : Event)
    (h : e ∈ (runTry env cwd acts).1) :
    (∃ c a, e = Event.execa c a cwd ∧ Action.exec c a ∈ acts)
    ∨ (∃ t, e = Event.copyTemplate t cwd ∧ Action.copyT t ∈ acts) := by
  induction acts with
  | nil => simp [runTry] at h
  | cons hd tl ih =>
    cases hd with
    | copyT t =>
      simp only [runTry] at h
      rcases List.mem_cons.mp h with h | h
      · exact Or.inr ⟨t, h, by simp⟩
      · rcases ih h with ⟨c, a, he, ha⟩ | ⟨t2, he, ha⟩
        · exact Or.inl ⟨c, a, he, by simp [ha]⟩
        · exact Or.inr ⟨t2, he, by simp [ha]⟩
    | exec c a =>
      simp only [runTry] at h
      by_cases hc : env.execOk c a = true
      · rw [if_pos hc] at h
        rcases List.mem_cons.mp h with h | h
        · exact Or.inl ⟨c, a, h, by simp⟩
        · rcases ih h with ⟨c2, a2, he, ha⟩ | ⟨t2, he, ha⟩
          · exact Or.inl ⟨c2, a2, he, by simp [ha]⟩
          · exact Or.inr ⟨t2, he, by simp [ha]⟩
      · rw [if_neg hc] at h
        simp only [List.mem_singleton] at h
        exact Or.inl ⟨c, a, h, by simp⟩

/-- The first subprocess of a try-block is always invoked. -/
theorem runTry_head_exec (env : Env) (cwd c : String) (a : List String) (rest : List Action) :
    Event.execa c a cwd ∈ (runTry env cwd (Action.exec c a :: rest)).1 := by
  simp only [runTry]
  by_cases hc : env.execOk c a = true
  · rw [if_pos hc]; exact List.mem_cons_self _ _
  · rw [if_neg hc]; exact List.mem_cons_self _ _

/-- The first copy of a try-block is always performed. -/
theorem runTry_head_copy (env : Env) (cwd t : String) (rest : List Action) :
    Event.copyTemplate t cwd ∈ (runTry env cwd (Action.copyT t :: rest)).1 := by
  simp only [runTry]
  exact List.mem_cons_self _ _

/-- After a successful subprocess, the rest of the try-block runs. -/
theorem runTry_tail_exec (env : Env) (cwd c : String) (a : List String) (rest : List Action)
    (hc : env.execOk c a = true) (e : Event) (h : e ∈ (runTry env cwd rest).1) :
    e ∈ (runTry env cwd (Action.exec c a :: rest)).1 := by
  simp only [runTry, if_pos hc]
  exact List.mem_cons_of_mem _ h

/-- After a copy, the rest of the try-block runs. -/
theorem runTry_tail_copy (env : Env) (cwd t : String) (rest : List Action) (e : Event)
    (h : e ∈ (runTry env cwd rest).1) :
    e ∈ (runTry env cwd (Action.copyT t :: rest)).1 := by
  simp only [runTry]
  exact List.mem_cons_of_mem _ h

/-- Every event of an extras block is its spinner messages, its note, or
an action of its own list. -/
theorem extraBlock_mem (env : Env) (cwd sm om fm nm nt : String) (acts : List Action)
    (e : Event) (h : e ∈ extraBlock env cwd sm om fm nm nt acts) :
    e = Event.spinnerStart sm ∨ e = Event.spinnerStop om ∨ e = Event.spinnerStop fm
    ∨ e = Event.note nm nt
    ∨ (∃ c a, e = Event.execa c a cwd ∧ Action.exec c a ∈ acts)
    ∨ (∃ t, e = Event.copyTemplate t cwd ∧ Action.copyT t ∈ acts) := by
  simp only [extraBlock] at h
  rcases List.mem_cons.mp h with h | h
  · exact Or.inl h
  · rcases List.mem_append.mp h with h | h
    · rcases runTry_mem env cwd acts e h with h | h
      · exact Or.inr (Or.inr (Or.inr (Or.inr (Or.inl h))))
      · exact Or.inr (Or.inr (Or.inr (Or.inr (Or.inr h))))
    · by_cases hr : (runTry env cwd acts).2 = true
      · rw [if_pos hr] at h
        simp only [List.mem_singleton] at h
        exact Or.inr (Or.inl h)
      · rw [if_neg hr] at h
        rcases List.mem_cons.mp h with h | h
        · exact Or.inr (Or.inr (Or.inl h))
        · simp only [List.mem_singleton] at h
          exact Or.inr (Or.inr (Or.inr (Or.inl h)))

/-- Every try-block event appears in its extras block. -/
theorem runTry_sub_extraBlock (env : Env) (cwd sm om fm nm nt : String) (acts : List Action)
    (e : Event) (h : e ∈ (runTry env cwd acts).1) :
    e ∈ extraBlock env cwd sm om fm nm nt acts := by
  simp only [extraBlock]
  exact List.mem_cons_of_mem _ (List.mem_append.mpr (Or.inl h))

/-- Every event of the install block. -/
theorem installBlock_mem (env : Env) (cwd pm : String) (ins : Bool) (e : Event)
    (h : e ∈ (installBlock env cwd pm ins).1) :
    e = Event.spinnerStart ("Installing dependencies using " ++ pm)
    ∨ e = Event.execa pm ["install"] cwd
    ∨ e = Event.spinnerStop ("Installed dependencies using " ++ pm)
    ∨ e = Event.spinnerStop "Failed to install dependencies"
    ∨ e = Event.note "You can install them manually." "" := by
  unfold installBlock at h
  cases ins with
  | false => simp at h
  | true =>
    by_cases hc : env.execOk pm ["install"] = true <;> simp [hc] at h <;> tauto

/-- Every event of the git block. -/
theorem gitBlock_mem (env : Env) (cwd : String) (git : Bool) (e : Event)
    (h : e ∈ (gitBlock env cwd git).1) :
    e = Event.execa "git" ["init"] cwd ∨ e = Event.execa "git" ["add", "-A"] cwd
    ∨ e = Event.execa "git" ["commit", "-m", "Initial commit"] cwd := by
  unfold gitBlock at h
  cases git with
  | false => simp at h
  | true =>
    by_cases h1 : env.execOk "git" ["init"] = true
    · by_cases h2 : env.execOk "git" ["add", "-A"] = true
      · by_cases h3 : env.execOk "git" ["commit", "-m", "Initial commit"] = true <;>
          simp [h1, h2, h3] at h <;> tauto
      · simp [h1, h2] at h; tauto
    · simp [h1] at h; tauto

/-- The git block is skipped entirely when version control was declined. -/
theorem gitBlock_false (env : Env) (cwd : String) : gitBlock env cwd false = ([], true) := rfl

/-- A failing `git init` leaves only its own invocation and no completed
block. -/
theorem gitBlock_init_fail (env : Env) (cwd : String)
    (h : env.execOk "git" ["init"] = false) :
    gitBlock env cwd true = ([Event.execa "git" ["init"] cwd], false) := by
  simp [gitBlock, h]

/-- A failing install flips the flag and shows the recovery note. -/
theorem installBlock_fail (env : Env) (cwd pm : String)
    (h : env.execOk pm ["install"] = false) :
    installBlock env cwd pm true =
      ([Event.spinnerStart ("Installing dependencies using " ++ pm),
        Event.execa pm ["install"] cwd,
        Event.spinnerStop "Failed to install dependencies",
        Event.note "You can install them manually." ""], false) := by
  simp [installBlock, h]

/-- Every event of the changesets block. -/
theorem changesetsBlock_mem (env : Env) (cwd : String) (extras : List String) (e : Event)
    (h : e ∈ changesetsBlock env cwd extras) :
    e = Event.spinnerStart "Initializing changesets"
    ∨ e = Event.spinnerStop "Initialized changesets"
    ∨ e = Event.spinnerStop "Failed to initialize changesets"
    ∨ e = Event.note "npx changeset init" "Initialize changesets manually."
    ∨ (∃ c a, e = Event.execa c a cwd ∧ Action.exec c a ∈ changesetActions)
    ∨ (∃ t, e = Event.copyTemplate t cwd ∧ Action.copyT t ∈ changesetActions) := by
  unfold changesetsBlock at h
  by_cases hc : extras.contains "@changesets/cli" = true
  · rw [if_pos hc] at h
    exact extraBlock_mem env cwd _ _ _ _ _ changesetActions e h
  · rw [if_neg hc] at h; simp at h

/-- Every event of the tailwind block. -/
theorem tailwindBlock_mem (env : Env) (cwd : String) (extras : List String) (e : Event)
    (h : e ∈ tailwindBlock env cwd extras) :
    e = Event.spinnerStart "Initializing tailwindcss"
    ∨ e = Event.spinnerStop "Initialized tailwindcss"
    ∨ e = Event.spinnerStop "Failed to initialize tailwindcss"
    ∨ e = Event.note "npx tailwindcss init -p" "Initialize tailwindcss manually."
    ∨ (∃ c a, e = Event.execa c a cwd ∧ Action.exec c a ∈ tailwindActions)
    ∨ (∃ t, e = Event.copyTemplate t cwd ∧ Action.copyT t ∈ tailwindActions) := by
  unfold tailwindBlock at h
  by_cases hc : extras.contains "tailwindcss" = true
  · rw [if_pos hc] at h
    exact extraBlock_mem env cwd _ _ _ _ _ tailwindActions e h
  · rw [if_neg hc] at h; simp at h

/-- Every event of the pre-install stage. -/
theorem preTrace_mem (env : Env) (options : Options) (cwd : String) (e : Event)
    (h : e ∈ preTrace env options cwd) :
    e = Event.generator cwd ∨ e = Event.spinnerStart "Resolving package versions"
    ∨ (∃ s, e = Event.printLine s)
    ∨ e = Event.spinnerStop "Resolved package versions"
    ∨ e = Event.writeFile cwd "package.json"
    ∨ e = Event.copyTemplate (baseTemplate options.types) cwd := by
  simp only [preTrace] at h
  rcases List.mem_append.mp h with h2 | h2
  · rcases List.mem_append.mp h2 with h3 | h3
    · rcases List.mem_cons.mp h3 with h4 | h4
      · tauto
      · simp only [List.mem_singleton] at h4
        tauto
    · obtain ⟨s, _, hs⟩ := List.mem_map.mp h3
      exact Or.inr (Or.inr (Or.inl ⟨s, hs.symm⟩))
  · rcases List.mem_cons.mp h2 with h4 | h4
    · tauto
    · rcases List.mem_cons.mp h4 with h5 | h5
      · tauto
      · simp only [List.mem_singleton] at h5
        tauto

/-- The main sequence under a working generator and a finished git block. -/
theorem mainTrace_eq_completed (env : Env) (options : Options) (cwd : String)
    (hg : env.genOk = true) (hb : (gitBlock env cwd options.git).2 = true) :
    mainTrace env options cwd =
      (preTrace env options cwd
        ++ (installBlock env cwd options.packageManager options.install).1
        ++ (gitBlock env cwd options.git).1
        ++ changesetsBlock env cwd options.extras
        ++ tailwindBlock env cwd options.extras
        ++ [Event.printLine "Your project is ready!"]
        ++ (summaryLines options
              (installBlock env cwd options.packageManager options.install).2 cwd).map
            Event.printLine,
       Outcome.completed) := by
  simp only [mainTrace, hg, hb, if_true]

/-- The main sequence under a working generator and a failing git block. -/
theorem mainTrace_eq_crashed (env : Env) (options : Options) (cwd : String)
    (hg : env.genOk = true) (hb : (gitBlock env cwd options.git).2 = false) :
    mainTrace env options cwd =
      (preTrace env options cwd
        ++ (installBlock env cwd options.packageManager options.install).1
        ++ (gitBlock env cwd options.git).1,
       Outcome.crashed) := by
  simp only [mainTrace, hg, hb, if_true, Bool.false_eq_true, if_false]

/-- Every event of the main sequence belongs to one of its stages. -/
theorem mainTrace_mem (env : Env) (options : Options) (cwd : String) (e : Event)
    (h : e ∈ (mainTrace env options cwd).1) :
    e ∈ preTrace env options cwd
    ∨ e ∈ (installBlock env cwd options.packageManager options.install).1
    ∨ e ∈ (gitBlock env cwd options.git).1
    ∨ e ∈ changesetsBlock env cwd options.extras
    ∨ e ∈ tailwindBlock env cwd options.extras
    ∨ (∃ s, e = Event.printLine s)
    ∨ e = Event.generator cwd := by
  by_cases hg : env.genOk = true
  · by_cases hb : (gitBlock env cwd options.git).2 = true
    · rw [mainTrace_eq_completed env options cwd hg hb] at h
      simp only [List.mem_append, List.mem_map, List.mem_singleton] at h
      rcases h with ((((((h | h) | h) | h) | h) | h) | ⟨s, _, h⟩)
      · tauto
      · tauto
      · tauto
      · tauto
      · tauto
      · exact Or.inr (Or.inr (Or.inr (Or.inr (Or.inr (Or.inl ⟨_, h⟩)))))
      · exact Or.inr (Or.inr (Or.inr (Or.inr (Or.inr (Or.inl ⟨s, h.symm⟩)))))
    · rw [mainTrace_eq_crashed env options cwd hg (by simpa using hb)] at h
      simp only [List.mem_append] at h
      rcases h with (h | h) | h <;> tauto
  · unfold mainTrace at h
    rw [if_neg hg] at h
    simp only [List.mem_singleton] at h
    exact Or.inr (Or.inr (Or.inr (Or.inr (Or.inr (Or.inr h)))))

/-- The pre-install stage runs whenever the generator worked. -/
theorem preTrace_sub_mainTrace (env : Env) (options : Options) (cwd : String)
    (hg : env.genOk = true) (e : Event) (h : e ∈ preTrace env options cwd) :
    e ∈ (mainTrace env options cwd).1 := by
  by_cases hb : (gitBlock env cwd options.git).2 = true
  · rw [mainTrace_eq_completed env options cwd hg hb]
    simp only [List.mem_append]
    tauto
  · rw [mainTrace_eq_crashed env options cwd hg (by simpa using hb)]
    simp only [List.mem_append]
    tauto

/-- The install block runs whenever the generator worked. -/
theorem installBlock_sub_mainTrace (env : Env) (options : Options) (cwd : String)
    (hg : env.genOk = true) (e : Event)
    (h : e ∈ (installBlock env cwd options.packageManager options.install).1) :
    e ∈ (mainTrace env options cwd).1 := by
  by_cases hb : (gitBlock env cwd options.git).2 = true
  · rw [mainTrace_eq_completed env options cwd hg hb]
    simp only [List.mem_append]
    tauto
  · rw [mainTrace_eq_crashed env options cwd hg (by simpa using hb)]
    simp only [List.mem_append]
    tauto

/-- The tailwind block runs whenever the generator worked and the git
block finished. -/
theorem tailwindBlock_sub_mainTrace (env : Env) (options : Options) (cwd : String)
    (hg : env.genOk = true) (hb : (gitBlock env cwd options.git).2 = true) (e : Event)
    (h : e ∈ tailwindBlock env cwd options.extras) :
    e ∈ (mainTrace env options cwd).1 := by
  rw [mainTrace_eq_completed env options cwd hg hb]
  simp only [List.mem_append]
  tauto

/-- The summary prints whenever the generator worked and the git block
finished. -/
theorem summary_sub_mainTrace (env : Env) (options : Options) (cwd : String)
    (hg : env.genOk = true) (hb : (gitBlock env cwd options.git).2 = true) (line : String)
    (h : line ∈ summaryLines options
        (installBlock env cwd options.packageManager options.install).2 cwd) :
    Event.printLine line ∈ (mainTrace env options cwd).1 := by
  rw [mainTrace_eq_completed env options cwd hg hb]
  simp only [List.mem_append, List.mem_map]
  exact Or.inr ⟨line, h, rfl⟩

/-- Every event of a full run belongs to one of the three phases. -/
theorem create_mem (inp : Input) (e : Event) (h : e ∈ (create inp).1) :
    e ∈ (resolveCwd inp.argv2 inp.dirText).1
    ∨ (∃ cwd, (resolveCwd inp.argv2 inp.dirText).2 = some cwd
        ∧ (e ∈ (dirGate inp.env cwd inp.forceAnswer).1
            ∨ e ∈ (mainTrace inp.env inp.options cwd).1)) := by
  simp only [create] at h
  cases hr : (resolveCwd inp.argv2 inp.dirText).2 with
  | none =>
    simp only [hr] at h
    exact Or.inl h
  | some cwd =>
    simp only [hr] at h
    by_cases hg : (dirGate inp.env cwd inp.forceAnswer).2 = true
    · rw [if_pos hg] at h
      rcases List.mem_append.mp h with h | h
      · rcases List.mem_append.mp h with h | h
        · exact Or.inl h
        · exact Or.inr ⟨cwd, rfl, Or.inl h⟩
      · exact Or.inr ⟨cwd, rfl, Or.inr h⟩
    · rw [if_neg hg] at h
      rcases List.mem_append.mp h with h | h
      · exact Or.inl h
      · exact Or.inr ⟨cwd, rfl, Or.inl h⟩

/-- A run past the gate is the three phases in sequence. -/
theorem create_eq_pass (inp : Input) (cwd : String)
    (h1 : (resolveCwd inp.argv2 inp.dirText).2 = some cwd)
    (h2 : (dirGate inp.env cwd inp.forceAnswer).2 = true) :
    create inp =
      ((resolveCwd inp.argv2 inp.dirText).1 ++ (dirGate inp.env cwd inp.forceAnswer).1
        ++ (mainTrace inp.env inp.options cwd).1,
       (mainTrace inp.env inp.options cwd).2) := by
  simp only [create, h1, h2, if_true]

/-- A run rejected at the gate stops with exit code 1. -/
theorem create_eq_reject (inp : Input) (cwd : String)
    (h1 : (resolveCwd inp.argv2 inp.dirText).2 = some cwd)
    (h2 : (dirGate inp.env cwd inp.forceAnswer).2 = false) :
    create inp =
      ((resolveCwd inp.argv2 inp.dirText).1 ++ (dirGate inp.env cwd inp.forceAnswer).1,
       Outcome.exited 1) := by
  simp only [create, h1, h2, Bool.false_eq_true, if_false]

/-- A cancelled directory prompt stops with exit code 1. -/
theorem create_eq_cancel (inp : Input)
    (h1 : (resolveCwd inp.argv2 inp.dirText).2 = none) :
    create inp = ((resolveCwd inp.argv2 inp.dirText).1, Outcome.exited 1) := by
  simp only [create, h1]

/-- The main sequence never shows the confirm prompt. -/
theorem confirm_not_in_mainTrace (env : Env) (options : Options) (cwd : String) :
    Event.confirmPrompt ∉ (mainTrace env options cwd).1 := by
  intro h
  rcases mainTrace_mem env options cwd _ h with h | h | h | h | h | h | h
  · rcases preTrace_mem env options cwd _ h with h | h | ⟨s, h⟩ | h | h | h <;> simp_all
  · rcases installBlock_mem env cwd _ _ _ h with h | h | h | h | h <;> simp_all
  · rcases gitBlock_mem env cwd _ _ h with h | h | h <;> simp_all
  · rcases changesetsBlock_mem env cwd _ _ h with h | h | h | h | ⟨c, a, h, _⟩ | ⟨t, h, _⟩ <;>
      simp_all
  · rcases tailwindBlock_mem env cwd _ _ h with h | h | h | h | ⟨c, a, h, _⟩ | ⟨t, h, _⟩ <;>
      simp_all
  · rcases h with ⟨s, h⟩; simp_all
  · simp_all

/-- Every template copied during a run, with its target. -/
theorem copyTemplate_in_mainTrace (env : Env) (options : Options) (cwd t d : String)
    (h : Event.copyTemplate t d ∈ (mainTrace env options cwd).1) :
    d = cwd ∧ (t = baseTemplate options.types ∨ t = "changesets" ∨ t = "tailwind") := by
  rcases mainTrace_mem env options cwd _ h with h | h | h | h | h | h | h
  · rcases preTrace_mem env options cwd _ h with h | h | ⟨s, h⟩ | h | h | h <;> simp_all
  · rcases installBlock_mem env cwd _ _ _ h with h | h | h | h | h <;> simp_all
  · rcases gitBlock_mem env cwd _ _ h with h | h | h <;> simp_all
  · rcases changesetsBlock_mem env cwd _ _ h with h | h | h | h | ⟨c, a, h, _⟩ | ⟨t2, h, ha⟩ <;>
      simp_all [changesetActions]
  · rcases tailwindBlock_mem env cwd _ _ h with h | h | h | h | ⟨c, a, h, _⟩ | ⟨t2, h, ha⟩ <;>
      simp_all [tailwindActions]
  · rcases h with ⟨s, h⟩; simp_all
  · simp_all

/-- The base template copy happens on every run that reaches it. -/
theorem copy_in_preTrace (env : Env) (options : Options) (cwd : String) :
    Event.copyTemplate (baseTemplate options.types) cwd ∈ preTrace env options cwd := by
  simp [preTrace]

/-- The manual-install instruction appears whenever the install flag ends
up false. -/
theorem manualInstall_in_nextSteps (relative pm : String) (gitFlag : Bool) :
    ∃ n, manualInstallLine n pm ∈ nextStepsLines relative pm false gitFlag := by
  by_cases hr : relative = ""
  · exact ⟨1, by simp [nextStepsLines, hr]⟩
  · exact ⟨2, by simp [nextStepsLines, hr]⟩

/-- The manual-git instruction appears whenever git was declined. -/
theorem manualGit_in_nextSteps (relative pm : String) (installFlag : Bool) :
    ∃ n, manualGitLine n ∈ nextStepsLines relative pm installFlag false := by
  by_cases hr : relative = ""
  · cases installFlag with
    | false => exact ⟨2, by simp [nextStepsLines, hr]⟩
    | true => exact ⟨1, by simp [nextStepsLines, hr]⟩
  · cases installFlag with
    | false => exact ⟨3, by simp [nextStepsLines, hr]⟩
    | true => exact ⟨2, by simp [nextStepsLines, hr]⟩

/-- Next-step lines are part of the summary. -/
theorem nextSteps_sub_summary (options : Options) (installFlag : Bool) (cwd line : String)
    (h : line ∈ nextStepsLines (pathRelative cwd) options.packageManager installFlag options.git) :
    line ∈ summaryLines options installFlag cwd := by
  simp only [summaryLines]
  exact List.mem_append.mpr (Or.inr h)

/-- The typed template set is chosen exactly for the typescript mode. -/
theorem baseTemplate_eq_ts (t : TypesChoice) :
    baseTemplate t = "typescript" ↔ t = TypesChoice.typescript := by
  cases t <;> decide

/-- The untyped template set is chosen exactly for the two other modes. -/
theorem baseTemplate_eq_js (t : TypesChoice) :
    baseTemplate t = "javascript" ↔ t ≠ TypesChoice.typescript := by
  cases t <;> decide

/-- Every subprocess invocation of the main sequence runs in the target
directory and is the install command, a git-block command, or an action
of one of the two extras blocks. -/
theorem execa_in_mainTrace (env : Env) (options : Options) (cwd : String)
    (c : String) (a : List String) (d : String)
    (h : Event.execa c a d ∈ (mainTrace env options cwd).1) :
    d = cwd ∧ ((c = options.packageManager ∧ a = ["install"])
      ∨ Event.execa c a cwd ∈ (gitBlock env cwd options.git).1
      ∨ Action.exec c a ∈ changesetActions
      ∨ Action.exec c a ∈ tailwindActions) := by
  rcases mainTrace_mem env options cwd _ h with h | h | h | h | h | h | h
  · rcases preTrace_mem env options cwd _ h with h | h | ⟨s, h⟩ | h | h | h <;> simp_all
  · rcases installBlock_mem env cwd _ _ _ h with h | h | h | h | h <;> simp_all
  · have hd : d = cwd := by
      rcases gitBlock_mem env cwd _ _ h with h | h | h <;> simp_all
    subst hd
    exact ⟨rfl, Or.inr (Or.inl h)⟩
  · rcases changesetsBlock_mem env cwd _ _ h with h | h | h | h | ⟨c2, a2, h, ha⟩ | ⟨t2, h, _⟩ <;>
      simp_all
  · rcases tailwindBlock_mem env cwd _ _ h with h | h | h | h | ⟨c2, a2, h, ha⟩ | ⟨t2, h, _⟩ <;>
      simp_all
  · rcases h with ⟨s, h⟩; simp_all
  · simp_all

/-! ## Claim theorems for the Scaffold Controller -/

/-- C4: for every run, an empty or nonexistent target directory never
triggers the not-empty confirmation prompt; an existing non-empty one
always does; and anything but an explicit yes at that prompt ends the run
with exit code 1 and a trace containing no file-writing event. -/
theorem directory_gate_spec (inp : Input) (cwd : String)
    (h1 : (resolveCwd inp.argv2 inp.dirText).2 = some cwd) :
    ((inp.env.existsSync cwd && inp.env.readdirNonEmpty cwd) = false →
      Event.confirmPrompt ∉ (create inp).1)
    ∧ ((inp.env.existsSync cwd && inp.env.readdirNonEmpty cwd) = true →
      Event.confirmPrompt ∈ (create inp).1)
    ∧ ((inp.env.existsSync cwd && inp.env.readdirNonEmpty cwd) = true →
      inp.forceAnswer ≠ ConfirmResult.answer true →
      (create inp).2 = Outcome.exited 1
        ∧ ∀ e ∈ (create inp).1, writesFiles e = false) := by
  refine ⟨?_, ?_, ?_⟩
  · intro hne hmem
    rcases create_mem inp _ hmem with h | ⟨cwd2, hr2, h | h⟩
    · exact absurd (resolveCwd_mem _ _ _ h) (by simp)
    · have hc : cwd2 = cwd := by rw [h1] at hr2; injection hr2 with hc; exact hc.symm
      subst hc
      rw [dirGate_empty inp.env cwd2 inp.forceAnswer hne] at h
      simp at h
    · have hc : cwd2 = cwd := by rw [h1] at hr2; injection hr2 with hc; exact hc.symm
      subst hc
      exact confirm_not_in_mainTrace inp.env inp.options cwd2 h
  · intro hne
    by_cases hg : (dirGate inp.env cwd inp.forceAnswer).2 = true
    · rw [create_eq_pass inp cwd h1 hg]
      simp only [List.mem_append]
      refine Or.inl (Or.inr ?_)
      rw [dirGate_nonempty inp.env cwd inp.forceAnswer hne]
      simp
    · rw [create_eq_reject inp cwd h1 (by simpa using hg)]
      simp only [List.mem_append]
      refine Or.inr ?_
      rw [dirGate_nonempty inp.env cwd inp.forceAnswer hne]
      simp
  · intro hne hf
    have hg := dirGate_reject inp.env cwd inp.forceAnswer hne hf
    rw [create_eq_reject inp cwd h1 hg]
    refine ⟨rfl, ?_⟩
    intro e he
    rcases List.mem_append.mp he with he | he
    · rw [resolveCwd_mem _ _ _ he]; rfl
    · rw [dirGate_mem _ _ _ _ he]; rfl

/-- Witness for C4: a run into an existing non-empty directory whose
confirmation is declined exits with code 1 and writes nothing. -/
theorem directory_gate_spec_witness :
    (inputDeclined.env.existsSync "occupied" && inputDeclined.env.readdirNonEmpty "occupied")
        = true
    ∧ ((create inputDeclined).2 = Outcome.exited 1
        ∧ ∀ e ∈ (create inputDeclined).1, writesFiles e = false) :=
  ⟨by decide,
   (directory_gate_spec inputDeclined "occupied" rfl).2.2 (by decide) (by decide)⟩

/-- C7: on every run that reaches the template-copy step, the typescript
template set is copied if and only if the chosen mode is typescript, and
the javascript set if and only if the mode is one of the other two - so
exactly one of the two mutually exclusive sets is copied. -/
theorem base_template_choice (inp : Input) (cwd : String)
    (h1 : (resolveCwd inp.argv2 inp.dirText).2 = some cwd)
    (h2 : (dirGate inp.env cwd inp.forceAnswer).2 = true)
    (h3 : inp.env.genOk = true) :
    (Event.copyTemplate "typescript" cwd ∈ (create inp).1 ↔
      inp.options.types = TypesChoice.typescript)
    ∧ (Event.copyTemplate "javascript" cwd ∈ (create inp).1 ↔
      inp.options.types ≠ TypesChoice.typescript) := by
  have hfwd : ∀ t, Event.copyTemplate t cwd ∈ (create inp).1 →
      t = baseTemplate inp.options.types ∨ t = "changesets" ∨ t = "tailwind" := by
    intro t hmem
    rcases create_mem inp _ hmem with h | ⟨cwd2, hr2, h | h⟩
    · exact absurd (resolveCwd_mem _ _ _ h) (by simp)
    · exact absurd (dirGate_mem _ _ _ _ h) (by simp)
    · exact (copyTemplate_in_mainTrace _ _ _ _ _ h).2
  have hbwd : Event.copyTemplate (baseTemplate inp.options.types) cwd ∈ (create inp).1 := by
    rw [create_eq_pass inp cwd h1 h2]
    simp only [List.mem_append]
    exact Or.inr (preTrace_sub_mainTrace _ _ _ h3 _ (copy_in_preTrace _ _ _))
  constructor
  · constructor
    · intro hmem
      rcases hfwd "typescript" hmem with h | h | h
      · exact (baseTemplate_eq_ts _).mp h.symm
      · exact absurd h (by decide)
      · exact absurd h (by decide)
    · intro ht
      have hb : baseTemplate inp.options.types = "typescript" := (baseTemplate_eq_ts _).mpr ht
      rw [← hb]; exact hbwd
  · constructor
    · intro hmem
      rcases hfwd "javascript" hmem with h | h | h
      · exact (baseTemplate_eq_js _).mp h.symm
      · exact absurd h (by decide)
      · exact absurd h (by decide)
    · intro ht
      have hb : baseTemplate inp.options.types = "javascript" := (baseTemplate_eq_js _).mpr ht
      rw [← hb]; exact hbwd

/-- Witness for C7: a checkjs run copies the javascript template set. -/
theorem base_template_choice_witness :
    Event.copyTemplate "javascript" "my-lib" ∈ (create inputTailwindNoGit).1 :=
  (base_template_choice inputTailwindNoGit "my-lib" rfl rfl rfl).2.mpr (by decide)

/-- C3: when the install subprocess exits non-zero, the install flag
carried into the summary is flipped to false, the recovery note is shown,
the summary contains the manual install instruction naming the chosen
package manager, and the run still completes (so the process exits 0). -/
theorem install_failure_recoverable (inp : Input) (cwd : String)
    (h1 : (resolveCwd inp.argv2 inp.dirText).2 = some cwd)
    (h2 : (dirGate inp.env cwd inp.forceAnswer).2 = true)
    (h3 : inp.env.genOk = true)
    (h4 : inp.options.install = true)
    (h5 : inp.env.execOk inp.options.packageManager ["install"] = false)
    (h6 : (gitBlock inp.env cwd inp.options.git).2 = true) :
    (installBlock inp.env cwd inp.options.packageManager inp.options.install).2 = false
    ∧ (create inp).2 = Outcome.completed
    ∧ Event.note "You can install them manually." "" ∈ (create inp).1
    ∧ ∃ n, Event.printLine (manualInstallLine n inp.options.packageManager)
        ∈ (create inp).1 := by
  have hibe : installBlock inp.env cwd inp.options.packageManager inp.options.install
      = ([Event.spinnerStart ("Installing dependencies using " ++ inp.options.packageManager),
          Event.execa inp.options.packageManager ["install"] cwd,
          Event.spinnerStop "Failed to install dependencies",
          Event.note "You can install them manually." ""], false) := by
    rw [h4]; exact installBlock_fail inp.env cwd inp.options.packageManager h5
  have hflag : (installBlock inp.env cwd inp.options.packageManager inp.options.install).2
      = false := by rw [hibe]
  refine ⟨hflag, ?_, ?_, ?_⟩
  · rw [create_eq_pass inp cwd h1 h2, mainTrace_eq_completed inp.env inp.options cwd h3 h6]
  · rw [create_eq_pass inp cwd h1 h2]
    simp only [List.mem_append]
    refine Or.inr (installBlock_sub_mainTrace _ _ _ h3 _ ?_)
    rw [hibe]
    simp
  · obtain ⟨n, hn⟩ := manualInstall_in_nextSteps (pathRelative cwd)
      inp.options.packageManager inp.options.git
    refine ⟨n, ?_⟩
    rw [create_eq_pass inp cwd h1 h2]
    simp only [List.mem_append]
    refine Or.inr (summary_sub_mainTrace _ _ _ h3 h6 _ ?_)
    rw [hflag]
    exact nextSteps_sub_summary inp.options false cwd _ hn

/-- Witness for C3: a concrete run with a failing `npm install` completes
and shows the recovery note and the manual instruction. -/
theorem install_failure_recoverable_witness :
    (create inputInstallFails).2 = Outcome.completed
    ∧ Event.note "You can install them manually." "" ∈ (create inputInstallFails).1
    ∧ ∃ n, Event.printLine (manualInstallLine n "npm") ∈ (create inputInstallFails).1 :=
  ⟨(install_failure_recoverable inputInstallFails "my-lib" rfl rfl rfl rfl (by decide) rfl).2.1,
   (install_failure_recoverable inputInstallFails "my-lib" rfl rfl rfl rfl (by decide) rfl).2.2.1,
   (install_failure_recoverable inputInstallFails "my-lib" rfl rfl rfl rfl (by decide) rfl).2.2.2⟩

/-- C1 counterexample: with version control requested and `git init`
exiting non-zero, the run crashes at the `git init` invocation with an
unhandled rejection; no recovery note is printed and nothing runs after
it, contradicting the claim that every subprocess failure is caught and
the run continues. -/
theorem git_failure_aborts_cx :
    (create inputGitFails).2 = Outcome.crashed
    ∧ Event.execa "git" ["init"] "my-lib" ∈ (create inputGitFails).1
    ∧ (create inputGitFails).1.all (fun e => !(isNote e)) = true := by decide

/-- C1 amended: install and extras-init subprocess failures are caught
with a warning and a manual-recovery note and the run continues, but the
git init/add/commit block is not guarded: a failing `git init` aborts the
run on the spot - the trace ends at that invocation and the outcome is an
unhandled crash, not a recovered continuation. -/
theorem git_init_failure_not_recoverable (inp : Input) (cwd : String)
    (h1 : (resolveCwd inp.argv2 inp.dirText).2 = some cwd)
    (h2 : (dirGate inp.env cwd inp.forceAnswer).2 = true)
    (h3 : inp.env.genOk = true)
    (h4 : inp.options.git = true)
    (h5 : inp.env.execOk "git" ["init"] = false) :
    (create inp).2 = Outcome.crashed
    ∧ (create inp).1.getLast? = some (Event.execa "git" ["init"] cwd) := by
  have hgb : gitBlock inp.env cwd inp.options.git
      = ([Event.execa "git" ["init"] cwd], false) := by
    rw [h4]; exact gitBlock_init_fail inp.env cwd h5
  have hmt := mainTrace_eq_crashed inp.env inp.options cwd h3 (by rw [hgb])
  rw [create_eq_pass inp cwd h1 h2, hmt, hgb]
  refine ⟨rfl, ?_⟩
  rw [show ((resolveCwd inp.argv2 inp.dirText).1 ++ (dirGate inp.env cwd inp.forceAnswer).1
      ++ (preTrace inp.env inp.options cwd
        ++ (installBlock inp.env cwd inp.options.packageManager inp.options.install).1
        ++ [Event.execa "git" ["init"] cwd]) : List Event)
    = ((resolveCwd inp.argv2 inp.dirText).1 ++ (dirGate inp.env cwd inp.forceAnswer).1
      ++ (preTrace inp.env inp.options cwd
        ++ (installBlock inp.env cwd inp.options.packageManager inp.options.install).1))
      ++ [Event.execa "git" ["init"] cwd] from by simp [List.append_assoc]]
  rw [List.getLast?_concat]

/-- Witness for C1 amended: the crash at `git init` on a concrete run. -/
theorem git_init_failure_not_recoverable_witness :
    (create inputGitFails).2 = Outcome.crashed
    ∧ (create inputGitFails).1.getLast? = some (Event.execa "git" ["init"] "my-lib") :=
  git_init_failure_not_recoverable inputGitFails "my-lib" rfl rfl rfl rfl (by decide)

/-- C5 counterexample: with only the tailwindcss extra selected and git
declined, the run still invokes `git commit` inside the tailwind block -
the commit step is attempted, not skipped. -/
theorem tailwind_commit_attempted_cx :
    inputTailwindNoGit.options.git = false
    ∧ Event.execa "git" ["commit", "-m", "feat: added tailwindcss"] "my-lib"
        ∈ (create inputTailwindNoGit).1 := by decide

/-- C5 amended: with extras = [tailwindcss] and git = false, the base git
block (init, add, Initial-commit) is skipped and the run completes; the
tailwind init subcommand is attempted regardless of the git setting and,
when it succeeds, the template copy and a git add are attempted too (the
block's own git add/commit are not skipped); and the final summary
carries the manual git-init instruction line. -/
theorem tailwind_extra_no_git (inp : Input) (cwd : String)
    (h1 : (resolveCwd inp.argv2 inp.dirText).2 = some cwd)
    (h2 : (dirGate inp.env cwd inp.forceAnswer).2 = true)
    (h3 : inp.env.genOk = true)
    (h4 : inp.options.git = false)
    (h5 : inp.options.extras = ["tailwindcss"]) :
    (create inp).2 = Outcome.completed
    ∧ Event.execa "git" ["init"] cwd ∉ (create inp).1
    ∧ Event.execa "git" ["commit", "-m", "Initial commit"] cwd ∉ (create inp).1
    ∧ Event.execa "npx" ["tailwindcss", "init", "-p"] cwd ∈ (create inp).1
    ∧ (inp.env.execOk "npx" ["tailwindcss", "init", "-p"] = true →
        Event.copyTemplate "tailwind" cwd ∈ (create inp).1
        ∧ Event.execa "git" ["add", "-A"] cwd ∈ (create inp).1)
    ∧ ∃ n, Event.printLine (manualGitLine n) ∈ (create inp).1 := by
  have hgb : gitBlock inp.env cwd inp.options.git = ([], true) := by
    rw [h4]; exact gitBlock_false inp.env cwd
  have htw : tailwindBlock inp.env cwd inp.options.extras
      = extraBlock inp.env cwd "Initializing tailwindcss" "Initialized tailwindcss"
          "Failed to initialize tailwindcss" "npx tailwindcss init -p"
          "Initialize tailwindcss manually." tailwindActions := by
    rw [h5]; rfl
  have hnotin : ∀ (a : List String), Action.exec "git" a ∉ changesetActions →
      Action.exec "git" a ∉ tailwindActions → a ≠ ["install"] →
      Event.execa "git" a cwd ∉ (create inp).1 := by
    intro a hcs htws hins hmem
    rcases create_mem inp _ hmem with h | ⟨cwd2, hr2, h | h⟩
    · exact absurd (resolveCwd_mem _ _ _ h) (by simp)
    · exact absurd (dirGate_mem _ _ _ _ h) (by simp)
    · have hc : cwd2 = cwd := by rw [h1] at hr2; injection hr2 with hc; exact hc.symm
      subst hc
      rcases (execa_in_mainTrace _ _ _ _ _ _ h).2 with ⟨_, hA⟩ | hG | hC | hT
      · exact hins hA
      · rw [hgb] at hG; simp at hG
      · exact hcs hC
      · exact htws hT
  refine ⟨?_, ?_, ?_, ?_, ?_, ?_⟩
  · rw [create_eq_pass inp cwd h1 h2,
      mainTrace_eq_completed inp.env inp.options cwd h3 (by rw [hgb])]
  · exact hnotin ["init"] (by decide) (by decide) (by decide)
  · exact hnotin ["commit", "-m", "Initial commit"] (by decide) (by decide) (by decide)
  · rw [create_eq_pass inp cwd h1 h2]
    simp only [List.mem_append]
    refine Or.inr (tailwindBlock_sub_mainTrace _ _ _ h3 (by rw [hgb]) _ ?_)
    rw [htw]
    exact runTry_sub_extraBlock _ _ _ _ _ _ _ _ _
      (runTry_head_exec inp.env cwd "npx" ["tailwindcss", "init", "-p"] _)
  · intro hnpx
    constructor
    · rw [create_eq_pass inp cwd h1 h2]
      simp only [List.mem_append]
      refine Or.inr (tailwindBlock_sub_mainTrace _ _ _ h3 (by rw [hgb]) _ ?_)
      rw [htw]
      exact runTry_sub_extraBlock _ _ _ _ _ _ _ _ _
        (runTry_tail_exec inp.env cwd "npx" ["tailwindcss", "init", "-p"] _ hnpx _
          (runTry_head_copy inp.env cwd "tailwind" _))
    · rw [create_eq_pass inp cwd h1 h2]
      simp only [List.mem_append]
      refine Or.inr (tailwindBlock_sub_mainTrace _ _ _ h3 (by rw [hgb]) _ ?_)
      rw [htw]
      exact runTry_sub_extraBlock _ _ _ _ _ _ _ _ _
        (runTry_tail_exec inp.env cwd "npx" ["tailwindcss", "init", "-p"] _ hnpx _
          (runTry_tail_copy inp.env cwd "tailwind" _ _
            (runTry_head_exec inp.env cwd "git" ["add", "-A"] _)))
  · obtain ⟨n, hn⟩ := manualGit_in_nextSteps (pathRelative cwd) inp.options.packageManager
      (installBlock inp.env cwd inp.options.packageManager inp.options.install).2
    refine ⟨n, ?_⟩
    rw [create_eq_pass inp cwd h1 h2]
    simp only [List.mem_append]
    refine Or.inr (summary_sub_mainTrace _ _ _ h3 (by rw [hgb]) _ ?_)
    apply nextSteps_sub_summary
    rw [h4]
    exact hn

/-- Witness for C5 amended: the concrete no-git tailwind run completes,
attempts the init subcommand and copies the tailwind templates. -/
theorem tailwind_extra_no_git_witness :
    (create inputTailwindNoGit).2 = Outcome.completed
    ∧ Event.execa "npx" ["tailwindcss", "init", "-p"] "my-lib" ∈ (create inputTailwindNoGit).1
    ∧ Event.copyTemplate "tailwind" "my-lib" ∈ (create inputTailwindNoGit).1 :=
  ⟨(tailwind_extra_no_git inputTailwindNoGit "my-lib" rfl rfl rfl rfl rfl).1,
   (tailwind_extra_no_git inputTailwindNoGit "my-lib" rfl rfl rfl rfl rfl).2.2.2.1,
   ((tailwind_extra_no_git inputTailwindNoGit "my-lib" rfl rfl rfl rfl rfl).2.2.2.2.1
      (by decide)).1⟩

/-- C10 counterexample: a positional argument of `.` is supplied, yet the
interactive directory prompt is shown (and its answer overrides the
argument), contradicting the claim that a supplied argument always skips
the prompt. -/
theorem arg_dot_shows_prompt_cx :
    Event.textPrompt ∈ (resolveCwd (some ".") (TextResult.entry "demo")).1
    ∧ (resolveCwd (some ".") (TextResult.entry "demo")).2 = some "demo" := by decide

/-- C10 amended: a supplied argument that is neither empty nor `.` skips
the prompt and becomes the target; when the argument part resolves to `.`
(no argument, an empty argument, or the argument `.`), the prompt is
shown, a cancel exits with code 1, a non-empty answer becomes the target,
and an empty answer leaves the target as `.`. -/
theorem cwd_resolution_spec (inp : Input) :
    (∀ s, inp.argv2 = some s → s ≠ "" → s ≠ "." →
      resolveCwd inp.argv2 inp.dirText = ([], some s))
    ∧ (argCwd inp.argv2 = "." →
        Event.textPrompt ∈ (resolveCwd inp.argv2 inp.dirText).1
        ∧ (inp.dirText = TextResult.cancel → (create inp).2 = Outcome.exited 1)
        ∧ (∀ d, inp.dirText = TextResult.entry d → d ≠ "" →
            (resolveCwd inp.argv2 inp.dirText).2 = some d)
        ∧ (inp.dirText = TextResult.entry "" →
            (resolveCwd inp.argv2 inp.dirText).2 = some ".")) := by
  constructor
  · intro s hs hne hdot
    have ha : argCwd inp.argv2 = s := by rw [hs]; simp [argCwd, hne]
    unfold resolveCwd
    rw [ha, if_neg hdot]
  · intro ha
    have h0 : resolveCwd inp.argv2 inp.dirText =
        (match inp.dirText with
         | TextResult.cancel => ([Event.textPrompt], none)
         | TextResult.entry d => ([Event.textPrompt], some (if d = "" then "." else d))) := by
      unfold resolveCwd
      rw [ha, if_pos rfl]
    refine ⟨?_, ?_, ?_, ?_⟩
    · rw [h0]; cases inp.dirText <;> simp
    · intro hc
      have hn : (resolveCwd inp.argv2 inp.dirText).2 = none := by rw [h0, hc]
      rw [create_eq_cancel inp hn]
    · intro d hd hne
      rw [h0, hd]
      simp [hne]
    · intro hd
      rw [h0, hd]
      simp

/-- Witness for C10 amended: a real argument skips the prompt; a
cancelled prompt exits with code 1. -/
theorem cwd_resolution_spec_witness :
    resolveCwd inputTailwindNoGit.argv2 inputTailwindNoGit.dirText = ([], some "my-lib")
    ∧ (create inputPromptCancel).2 = Outcome.exited 1 :=
  ⟨(cwd_resolution_spec inputTailwindNoGit).1 "my-lib" rfl (by decide) (by decide),
   ((cwd_resolution_spec inputPromptCancel).2 (by decide)).2.1 rfl⟩

end CreateSvelteLib
